import Mathlib

/-!
Verification of the llmforge provider-orchestration core against its
specification.  The TypeScript sources are shallowly embedded:

* `src/strategies/retry/expo.ts` — `RetryHandler` (constructor defaulting,
  `executeWithRetry`, `isRetryableError`, `calculateDelay`);
* `src/index.ts` — `RunnerClient.run` (priority fallback orchestrator);
* `src/providers/google.adapter.ts` — `convertFromGeminiResponse`;
* `src/strategies/stream/google.stream.ts` — `extractCompleteJsonObjects`
  and `createAsyncGenerator` (brace-counting stream normalizer);
* `src/strategies/stream/groq.stream.ts` — `processChunk` and
  `createAsyncGenerator` (line-delimited SSE normalizer).

Numbers that are JavaScript `number`s used only additively/multiplicatively
are embedded as `ℚ` (delays) or `Nat`/`Int` (counters, status codes);
`JSON.parse` is a platform builtin and is embedded as an abstract parse
function `String → Option _` supplied as a parameter.
-/

namespace LLMForge

/-! ## Error taxonomy (src/types/index.ts)

`GeminiError` carries optional `code`/`status`; `RetryableError` and
`NonRetryableError` are subclasses.  `isRetryableError` distinguishes errors
only through `instanceof`, `name`, `message` and the `status`/`code` fields,
so an error value is embedded by exactly those observations. -/

/-- Which error class the thrown value is an instance of. -/
inductive ErrClass where
  | retryableInst     -- `instanceof RetryableError`
  | nonRetryableInst  -- `instanceof NonRetryableError`
  | plain             -- any other thrown error
  deriving DecidableEq, Repr

/-- A thrown JavaScript error, as observed by `RetryHandler.isRetryableError`. -/
structure JsError where
  cls : ErrClass
  name : String
  message : String
  status : Option Int := none
  code : Option Int := none
  deriving DecidableEq, Repr

/-! ## Retry handler (src/strategies/retry/expo.ts) -/

/-- The normalized `RetryConfig` held by a `RetryHandler`. -/
structure RetryConfig where
  maxRetries : Nat
  retryDelay : ℚ
  exponentialBackoff : Bool
  retryableStatusCodes : List Int
  deriving DecidableEq, Repr

/-- The `Partial<RetryConfig>` accepted by the `RetryHandler` constructor:
every field may be absent (`undefined`). -/
structure PartialRetryConfig where
  maxRetries : Option Nat := none
  retryDelay : Option ℚ := none
  exponentialBackoff : Option Bool := none
  retryableStatusCodes : Option (List Int) := none
  deriving Repr

/-- JavaScript truthiness coercion `x || d` for an optional number:
`undefined` and `0` are falsy. -/
def jsNumOr (x : Option Nat) (d : Nat) : Nat :=
  match x with
  | some v => if v = 0 then d else v
  | none => d

/-- `x || d` for an optional rational (a JS number). -/
def jsRatOr (x : Option ℚ) (d : ℚ) : ℚ :=
  match x with
  | some v => if v = 0 then d else v
  | none => d

/-- The `RetryHandler` constructor:
`maxRetries: config.maxRetries || 3`, `retryDelay: config.retryDelay || 1000`,
`exponentialBackoff: config.exponentialBackoff !== false`,
`retryableStatusCodes: config.retryableStatusCodes || [429,500,502,503,504]`
(an array is always truthy, so only `undefined` falls back). -/
def mkRetryConfig (c : PartialRetryConfig) : RetryConfig where
  maxRetries := jsNumOr c.maxRetries 3
  retryDelay := jsRatOr c.retryDelay 1000
  exponentialBackoff := c.exponentialBackoff ≠ some false
  retryableStatusCodes := c.retryableStatusCodes.getD [429, 500, 502, 503, 504]

/-- `error.status || error.code`: the first of the two fields that is truthy
(present and nonzero), if any. -/
def statusOrCode (e : JsError) : Option Int :=
  match e.status with
  | some v => if v = 0 then (match e.code with
      | some w => if w = 0 then none else some w
      | none => none) else some v
  | none => match e.code with
      | some w => if w = 0 then none else some w
      | none => none

/-- Substring test, standing in for JavaScript `String.prototype.includes`. -/
def strIncludes (s sub : String) : Bool :=
  decide (sub.data <:+: s.data)

/-- `RetryHandler.isRetryableError` (expo.ts lines 48–74). -/
def isRetryableError (cfg : RetryConfig) (e : JsError) : Bool :=
  if e.cls = ErrClass.nonRetryableInst then false
  else if e.cls = ErrClass.retryableInst then true
  else if e.name = "TypeError" && strIncludes e.message "fetch" then true
  else if e.name = "AbortError" || strIncludes e.message "timeout" then true
  else match statusOrCode e with
    | some sc => decide (sc ∈ cfg.retryableStatusCodes)
    | none => false

/-- One run of the `for (attempt = 0; attempt <= maxRetries; attempt++)` loop
of `executeWithRetry`, starting at attempt `cfg.maxRetries - remaining`.
The operation is a function of the attempt index; the result pairs the
outcome with the number of times the operation was invoked.  Logging and the
backoff sleep have no effect on the outcome and are dropped. -/
def execFrom (cfg : RetryConfig) (op : Nat → Except JsError α) :
    Nat → Nat → Except JsError α × Nat
  | remaining, attempt =>
    match op attempt with
    | .ok v => (.ok v, 1)
    | .error e =>
      match remaining with
      | 0 => (.error e, 1)           -- `attempt === maxRetries`: break, throw lastError
      | r + 1 =>
        if isRetryableError cfg e then
          let (res, n) := execFrom cfg op r (attempt + 1)
          (res, n + 1)
        else (.error e, 1)           -- non-retryable: throw immediately

/-- `RetryHandler.executeWithRetry` (expo.ts lines 15–46), with the number of
invocations of `operation` recorded. -/
def executeWithRetry (cfg : RetryConfig) (op : Nat → Except JsError α) :
    Except JsError α × Nat :=
  execFrom cfg op cfg.maxRetries 0

/-- `RetryHandler.calculateDelay` (expo.ts lines 76–83).  `rand` is the value
of `Math.random()`, in `[0, 1)`; the jitter fraction `rand * 0.1` is then in
`[0, 0.1)`. -/
def calculateDelay (cfg : RetryConfig) (attempt : Nat) (rand : ℚ) : ℚ :=
  if !cfg.exponentialBackoff then cfg.retryDelay
  else
    let baseDelay := cfg.retryDelay * 2 ^ attempt
    let jitter := rand * (1 / 10) * baseDelay
    ((⌊baseDelay + jitter⌋ : ℤ) : ℚ)

/-- The default retry policy installed by `RunnerClient.setLLMConfigToDefault`
(`src/index.ts` line 47): `retryConfig || { maxRetries: 0, retryDelay: 1000 }`. -/
def defaultLLMRetryConfig : PartialRetryConfig :=
  { maxRetries := some 0, retryDelay := some 1000 }

/-! ## Unified response shape (src/types/index.ts `GenerateContentResponse`) -/

/-- `usage: { input_tokens?, output_tokens?, total_tokens? }`. -/
structure TokenUsage where
  input_tokens : Option Nat := none
  output_tokens : Option Nat := none
  total_tokens : Option Nat := none
  deriving DecidableEq, Repr

/-- `fallback: { isUsed, reason? }`. -/
structure FallbackInfo where
  isUsed : Bool
  reason : Option String := none
  deriving DecidableEq, Repr

/-- The unified non-streaming response; every field is optional in the
TypeScript interface. -/
structure GenerateContentResponse where
  resp_id : Option String := none
  output : Option String := none
  created_at : Option Nat := none
  model : Option String := none
  usage : Option TokenUsage := none
  status : Option String := none
  fallback : Option FallbackInfo := none
  deriving DecidableEq, Repr

/-! ## Gemini adapter response conversion
(src/providers/google.adapter.ts `convertFromGeminiResponse`) -/

/-- A Gemini content part: either a `{ text }` part (`'text' in part`) or any
other part kind (inline data / file data), for which the conversion yields
the empty string. -/
inductive GContentPart where
  | text (t : String)
  | other
  deriving DecidableEq, Repr

/-- One entry of `GeminiResponse.candidates`; `content.role` is never read by
the conversion, so only `content.parts` is kept. -/
structure GeminiCandidate where
  parts : List GContentPart
  finishReason : Option String := none
  deriving DecidableEq, Repr

/-- `GeminiResponse.usageMetadata`. -/
structure GeminiUsageMetadata where
  promptTokenCount : Option Nat := none
  candidatesTokenCount : Option Nat := none
  totalTokenCount : Option Nat := none
  deriving DecidableEq, Repr

/-- The raw Gemini REST response (src/types `GeminiResponse`). -/
structure GeminiResponse where
  candidates : List GeminiCandidate
  usageMetadata : Option GeminiUsageMetadata := none
  modelVersion : Option String := none
  responseId : Option String := none
  deriving DecidableEq, Repr

/-- `GeminiClient.convertFromGeminiResponse` (google.adapter.ts lines 32–44):
note that no `fallback` field is ever attached and `status` is `'success'`. -/
def convertFromGeminiResponse (r : GeminiResponse) : GenerateContentResponse where
  resp_id := r.responseId
  model := r.modelVersion
  output := some (match r.candidates.head? with
    | some c => String.join (c.parts.map fun p => match p with
        | .text t => t
        | .other => "")
    | none => "")
  usage := some
    { input_tokens := r.usageMetadata.bind (·.promptTokenCount)
      output_tokens := r.usageMetadata.bind (·.candidatesTokenCount)
      total_tokens := r.usageMetadata.bind (·.totalTokenCount) }
  status := some "success"

/-! ## Orchestrator (src/index.ts `RunnerClient.run`)

A candidate is embedded as the pair of its adapter's constructor name (used
in `reasonForFallback`) and the outcome of awaiting its
`generateContent`/`generateContentStreamAsync` call: `.ok response` or
`.error message`.  The claims under verification concern non-streaming
candidates, whose successful outcome is a `GenerateContentResponse` returned
verbatim.  `now` is the value of `Date.now()`. -/

/-- JavaScript `array.join(', ')`. -/
def joinComma : List String → String
  | [] => ""
  | [x] => x
  | x :: y :: ys => x ++ ", " ++ joinComma (y :: ys)

/-- One entry of the fallback reason: `` `${r.client}: ${r.error}` ``. -/
def reasonLine (r : String × String) : String :=
  r.1 ++ ": " ++ r.2

/-- The code after the candidate loop (index.ts lines 101–115): if a failure
was recorded and fallback is enabled, synthesize the degraded response,
otherwise throw the aggregate error. -/
def runFinish (enableFallback : Bool) (now : Nat) (trace : List (String × String)) :
    Except String GenerateContentResponse :=
  if trace ≠ [] ∧ enableFallback then
    .ok { resp_id := none
          output := some ""
          created_at := some now
          model := some "fallback"
          usage := some { input_tokens := some 0, output_tokens := some 0, total_tokens := some 0 }
          status := some "fallback"
          fallback := some { isUsed := true, reason := some (joinComma (trace.map reasonLine)) } }
  else
    .error ("All LLM clients failed: " ++ joinComma (trace.map reasonLine))

/-- The candidate loop (index.ts lines 86–100): try each candidate in
priority order; on failure record `{client, error}`; if fallback is disabled
break out of the loop after the first failure. -/
def runAux (enableFallback : Bool) (now : Nat) (trace : List (String × String)) :
    List (String × Except String GenerateContentResponse) →
      Except String GenerateContentResponse
  | [] => runFinish enableFallback now trace
  | (name, res) :: rest =>
    match res with
    | .ok r => .ok r
    | .error msg =>
      if enableFallback then runAux enableFallback now (trace ++ [(name, msg)]) rest
      else runFinish enableFallback now (trace ++ [(name, msg)])

/-- `RunnerClient.run` (index.ts lines 78–116) over the priority-sorted
candidate list. -/
def run (enableFallback : Bool) (now : Nat) :
    List (String × Except String GenerateContentResponse) →
      Except String GenerateContentResponse
  | [] => .error "No LLM clients available to run the content."
  | c :: cs => runAux enableFallback now [] (c :: cs)

/-! ## JavaScript string primitives

`String.prototype.trim`, `.startsWith`, `.slice` and `.split` are embedded
as structurally recursive character-level functions (the core `String`
versions are byte-position based and equivalent on the inputs at hand). -/

/-- Drop leading whitespace characters. -/
def dropWS : List Char → List Char
  | [] => []
  | c :: cs => if c.isWhitespace then dropWS cs else c :: cs

/-- `s.trim()`: strip leading and trailing whitespace. -/
def jsTrim (s : String) : String :=
  String.mk ((dropWS (dropWS s.data).reverse).reverse)

/-- `s.startsWith(pre)`. -/
def jsStartsWith (s pre : String) : Bool :=
  decide (pre.data <+: s.data)

/-- `s.slice(n)`: drop the first `n` characters. -/
def jsDrop (s : String) (n : Nat) : String :=
  String.mk (s.data.drop n)

/-- Character-list worker for `s.split(sep)`. -/
def splitOnCharAux (sep : Char) : List Char → List Char → List (List Char)
  | acc, [] => [acc.reverse]
  | acc, c :: cs =>
    if c = sep then acc.reverse :: splitOnCharAux sep [] cs
    else splitOnCharAux sep (c :: acc) cs

/-- `s.split(sep)` for a single-character separator: `"".split` is `[""]`,
a trailing separator yields a trailing `""`. -/
def jsSplitOnChar (sep : Char) (s : String) : List String :=
  (splitOnCharAux sep [] s.data).map String.mk

/-! ## Stream events (the `streamResponse` / `streamResponseComplete`
interfaces of src/index.ts).  A single record covers both: a plain delta
carries only `type` and `token`, the other fields staying `undefined`. -/

/-- A normalized stream event as yielded by the async generators. -/
structure StreamResponse where
  type : String
  token : String
  completeOutput : Option String := none
  thinkingOutput : Option String := none
  model : Option String := none
  usage : Option TokenUsage := none
  status : Option String := none
  deriving DecidableEq, Repr

/-- Sequencing helper for the `for`-loops of the generators: thread the
mutable state through a list, concatenating the yielded events in order. -/
def foldProc (f : σ → δ → σ × List StreamResponse) : σ → List δ → σ × List StreamResponse
  | s, [] => (s, [])
  | s, d :: ds =>
    let (s1, e1) := f s d
    let (s2, e2) := foldProc f s1 ds
    (s2, e1 ++ e2)

/-! ## Google stream normalizer (src/strategies/stream/google.stream.ts)

The byte stream is embedded as the list of decoded string reads delivered by
`reader.read()`; `JSON.parse` of an extracted frame is an abstract
`parse : String → Option GChunk` (returning `none` both when `JSON.parse`
throws and when it yields a falsy value). -/

/-- The scanner state of `extractCompleteJsonObjects` between two characters:
`cur` holds the characters from `startIndex` to the current position
(in reverse) when `startIndex !== -1`, and is `none` otherwise. -/
structure ScanState where
  inString : Bool := false
  escapeNext : Bool := false
  depth : Int := 0
  cur : Option (List Char) := none
  deriving DecidableEq, Repr

/-- The initial scanner state at the top of `extractCompleteJsonObjects`. -/
def initScan : ScanState := {}

/-- Record the character as part of the current object, if one is open. -/
def pushCur (cur : Option (List Char)) (c : Char) : Option (List Char) :=
  cur.map (c :: ·)

/-- One iteration of the character loop of `extractCompleteJsonObjects`
(google.stream.ts lines 120–156); emits a completed object on a
depth-closing `}`. -/
def scanStep (σ : ScanState) (c : Char) : ScanState × Option (List Char) :=
  if σ.escapeNext then ({ σ with escapeNext := false, cur := pushCur σ.cur c }, none)
  else if c = '\\' ∧ σ.inString then ({ σ with escapeNext := true, cur := pushCur σ.cur c }, none)
  else if c = '"' then ({ σ with inString := !σ.inString, cur := pushCur σ.cur c }, none)
  else if σ.inString then ({ σ with cur := pushCur σ.cur c }, none)
  else if c = '{' then
    if σ.depth = 0 then ({ σ with depth := σ.depth + 1, cur := some [c] }, none)
    else ({ σ with depth := σ.depth + 1, cur := pushCur σ.cur c }, none)
  else if c = '}' then
    let cur' := pushCur σ.cur c
    if σ.depth - 1 = 0 ∧ cur'.isSome then
      ({ σ with depth := σ.depth - 1, cur := none }, some (cur'.getD []).reverse)
    else ({ σ with depth := σ.depth - 1, cur := cur' }, none)
  else ({ σ with cur := pushCur σ.cur c }, none)

/-- The full character loop: final state plus completed objects in order. -/
def scanList (σ : ScanState) : List Char → ScanState × List (List Char)
  | [] => (σ, [])
  | c :: cs =>
    let (σ1, out) := scanStep σ c
    let (σ2, objs) := scanList σ1 cs
    (σ2, match out with | some o => o :: objs | none => objs)

/-- `remainingBuffer`: the suffix from `startIndex` when an object is still
open, `''` otherwise (google.stream.ts line 159). -/
def remOf (σ : ScanState) : List Char :=
  match σ.cur with
  | some l => l.reverse
  | none => []

/-- `GoogleStreamProcessor.extractCompleteJsonObjects` (lines 112–162). -/
def extractCompleteJsonObjects (buffer : String) : List String × String :=
  let (σ, objs) := scanList initScan buffer.data
  (objs.map String.mk, String.mk (remOf σ))

/-- A parsed stream-chunk part; `text := none` embeds a part without a
`text` field. -/
structure GPart where
  text : Option String := none
  deriving DecidableEq, Repr

/-- A parsed chunk candidate; absent `content`/`parts` is the empty list. -/
structure GCandidate where
  parts : List GPart := []
  deriving DecidableEq, Repr

/-- A chunk as produced by `JSON.parse` on one extracted frame; absent
`candidates` is the empty list (both are skipped identically). -/
structure GChunk where
  candidates : List GCandidate := []
  usageMetadata : Option GeminiUsageMetadata := none
  modelVersion : Option String := none
  responseId : Option String := none
  deriving DecidableEq, Repr

/-- JavaScript truthiness of an optional string field. -/
def strTruthy : Option String → Bool
  | some s => s ≠ ""
  | none => false

/-- Position after the first occurrence of `**`, for the regex
`/\*\*([\s\S]*?)\*\*/` of `extractThinkingContent`. -/
def splitAfterStars : List Char → Option (List Char)
  | '*' :: '*' :: rest => some rest
  | _ :: rest => splitAfterStars rest
  | [] => none

/-- Characters up to (not including) the next `**`; `none` when no `**`
follows, in which case the regex as a whole fails. -/
def takeToStars : List Char → Option (List Char)
  | '*' :: '*' :: _ => some []
  | c :: rest => (takeToStars rest).map (c :: ·)
  | [] => none

/-- `text.match(/\*\*([\s\S]*?)\*\*/)`, returning the first capture group:
the (lazily shortest) text between the first `**` and the following `**`. -/
def starMatch (s : String) : Option String :=
  (splitAfterStars s.data).bind fun rest => (takeToStars rest).map String.mk

/-- `extractThinkingContent` over the parts of one candidate. -/
def extractThinkingParts : List GPart → Option String
  | [] => none
  | p :: ps =>
    match p.text with
    | some t =>
      if t ≠ "" then
        match starMatch t with
        | some cap => some cap
        | none => extractThinkingParts ps
      else extractThinkingParts ps
    | none => extractThinkingParts ps

/-- `GoogleStreamProcessor.extractThinkingContent` (lines 207–219). -/
def extractThinkingContent (ch : GChunk) : Option String :=
  (fun go => go ch.candidates) (fun cs =>
    List.foldr (fun (c : GCandidate) acc =>
      match extractThinkingParts c.parts with
      | some cap => some cap
      | none => acc) none cs)

/-- The mutable locals of `createAsyncGenerator` other than `buffer`
(google.stream.ts lines 282–287); `status` is initialized to `''` and never
reassigned. -/
structure GoogleAcc where
  aggregatedText : String := ""
  thinkingOutput : String := ""
  model : String := ""
  usage : Option TokenUsage := none
  status : String := ""
  deriving DecidableEq, Repr

/-- The part loop body (lines 337–354): a part with nonempty, non-blank text
appends to the aggregate and yields one delta event. -/
def procPart (acc : GoogleAcc) (p : GPart) : GoogleAcc × List StreamResponse :=
  match p.text with
  | some t =>
    if t ≠ "" ∧ jsTrim t ≠ "" then
      ({ acc with aggregatedText := acc.aggregatedText ++ t },
       [{ type := "delta", token := t }])
    else (acc, [])
  | none => (acc, [])

/-- The candidate/part loops plus the thinking, model and usage updates for
one parsed chunk in the main read loop (lines 327–387). -/
def procChunk (acc : GoogleAcc) (ch : GChunk) : GoogleAcc × List StreamResponse :=
  if ch.candidates ≠ [] then
    let (a1, evs) := foldProc (fun a (c : GCandidate) => foldProc procPart a c.parts) acc ch.candidates
    let a2 := match extractThinkingContent ch with
      | some thk => if thk ≠ "" then { a1 with thinkingOutput := thk } else a1
      | none => a1
    let a3 :=
      if strTruthy ch.modelVersion then { a2 with model := ch.modelVersion.getD "" }
      else if strTruthy ch.responseId then { a2 with model := ch.responseId.getD "" }
      else a2
    let a4 := match ch.usageMetadata with
      | some m =>
        let u : TokenUsage := ⟨m.promptTokenCount, m.candidatesTokenCount, m.totalTokenCount⟩
        { a3 with usage := some u }
      | none => a3
    (a4, evs)
  else (acc, [])

/-- The trailing-buffer chunk handling (lines 398–435): identical part
processing, thinking and usage updates, but no model update. -/
def procFinalChunk (acc : GoogleAcc) (ch : GChunk) : GoogleAcc × List StreamResponse :=
  if ch.candidates ≠ [] then
    let (a1, evs) := foldProc (fun a (c : GCandidate) => foldProc procPart a c.parts) acc ch.candidates
    let a2 := match extractThinkingContent ch with
      | some thk => if thk ≠ "" then { a1 with thinkingOutput := thk } else a1
      | none => a1
    let a3 := match ch.usageMetadata with
      | some m =>
        let u : TokenUsage := ⟨m.promptTokenCount, m.candidatesTokenCount, m.totalTokenCount⟩
        { a2 with usage := some u }
      | none => a2
    (a3, evs)
  else (acc, [])

/-- The `for (const jsonObject of objects)` loop (lines 314–391): a frame on
which `JSON.parse` throws (or yields a falsy value) is skipped. -/
def procObjs (parse : String → Option GChunk) : GoogleAcc → List String → GoogleAcc × List StreamResponse :=
  foldProc fun acc s =>
    match parse s with
    | some ch => procChunk acc ch
    | none => (acc, [])

/-- One iteration of the read loop (lines 292–392): append the read to the
carry-over buffer, extract complete frames, keep the remainder. -/
def googleStep (parse : String → Option GChunk) :
    List Char × GoogleAcc → String → (List Char × GoogleAcc) × List StreamResponse
  | (buffer, acc), read =>
    let buf := buffer ++ read.data
    let (σ, objs) := scanList initScan buf
    let (acc', evs) := procObjs parse acc (objs.map String.mk)
    ((remOf σ, acc'), evs)

/-- End-of-stream handling of the remaining buffer (lines 394–436). -/
def googleFinish (parse : String → Option GChunk) (buffer : List Char) (acc : GoogleAcc) :
    GoogleAcc × List StreamResponse :=
  if jsTrim (String.mk buffer) ≠ "" then
    match parse (jsTrim (String.mk buffer)) with
    | some ch => procFinalChunk acc ch
    | none => (acc, [])
  else (acc, [])

/-- The `type: 'done'` marker event (lines 437–451), with hard-coded
zero usage and empty strings apart from the aggregate. -/
def doneEvent (acc : GoogleAcc) : StreamResponse where
  type := "done"
  token := ""
  completeOutput := some acc.aggregatedText
  thinkingOutput := some ""
  model := some ""
  usage := some { input_tokens := some 0, output_tokens := some 0, total_tokens := some 0 }
  status := some ""

/-- The final `type: 'completed'` event (lines 453–467). -/
def completedEvent (acc : GoogleAcc) : StreamResponse where
  type := "completed"
  token := ""
  completeOutput := some acc.aggregatedText
  thinkingOutput := some acc.thinkingOutput
  model := some acc.model
  usage := acc.usage
  status := some acc.status

/-- `GoogleStreamProcessor.createAsyncGenerator` (lines 266–475) over a list
of reads: the ordered list of all yielded events. -/
def googleCreateAsyncGenerator (parse : String → Option GChunk) (reads : List String) :
    List StreamResponse :=
  let ((buffer, acc), evs) := foldProc (googleStep parse) ([], {}) reads
  let (acc', evs') := googleFinish parse buffer acc
  evs ++ evs' ++ [doneEvent acc', completedEvent acc']

/-- A well-formed logical frame for the brace-counting framing: a nonempty
character sequence that the scanner, started fresh, consumes into exactly
itself as one object, returning to the fresh state, and of which every
proper nonempty prefix leaves the scanner mid-object with no output. -/
def IsFrame (f : List Char) : Prop :=
  f ≠ [] ∧ scanList initScan f = (initScan, [f]) ∧
  ∀ n, n < f.length → 0 < n →
    (scanList initScan (f.take n)).2 = [] ∧
    (scanList initScan (f.take n)).1.cur = some (f.take n).reverse

instance instDecidableIsFrame (f : List Char) : Decidable (IsFrame f) :=
  inferInstanceAs (Decidable (f ≠ [] ∧ scanList initScan f = (initScan, [f]) ∧
    ∀ n, n < f.length → 0 < n →
      (scanList initScan (f.take n)).2 = [] ∧
      (scanList initScan (f.take n)).1.cur = some (f.take n).reverse))

/-! ## Groq stream normalizer (src/strategies/stream/groq.stream.ts)

Line-delimited SSE framing; `JSON.parse` is an abstract
`parse : String → Option GroqChunk`. -/

/-- `choices[i].delta`. -/
structure GroqDelta where
  content : Option String := none
  deriving DecidableEq, Repr

/-- One entry of `ChatCompletionChunk.choices`. -/
structure GroqChoice where
  delta : Option GroqDelta := none
  finish_reason : Option String := none
  deriving DecidableEq, Repr

/-- `x_groq.usage`. -/
structure GroqUsage where
  prompt_tokens : Nat := 0
  completion_tokens : Nat := 0
  total_tokens : Nat := 0
  deriving DecidableEq, Repr

/-- A parsed `ChatCompletionChunk`; `x_groq := none` embeds a chunk without
usage information. -/
structure GroqChunk where
  id : String := ""
  model : String := ""
  choices : List GroqChoice := []
  x_groq : Option GroqUsage := none
  deriving DecidableEq, Repr

/-- The instance fields of `GroqStreamProcessor`, reset per stream. -/
structure GroqState where
  completeOutput : String := ""
  model : String := ""
  chatId : String := ""
  deriving DecidableEq, Repr

/-- `rawData.startsWith('data: ') ? rawData.slice(6) : rawData`. -/
def jsonStrOf (raw : String) : String :=
  if jsStartsWith raw "data: " then jsDrop raw 6 else raw

/-- The `finish_reason === 'stop'` tail of `processChunk` (lines 72–93). -/
def groqFinishCheck (st : GroqState) (choice : GroqChoice) (ch : GroqChunk) :
    GroqState × Option StreamResponse :=
  if choice.finish_reason = some "stop" then
    (st, some
      { type := "completed"
        token := ""
        completeOutput := some st.completeOutput
        model := some st.model
        status := some "completed"
        usage := match ch.x_groq with
          | some u => some
              { input_tokens := some u.prompt_tokens
                output_tokens := some u.completion_tokens
                total_tokens := some u.total_tokens }
          | none => none })
  else (st, none)

/-- `GroqStreamProcessor.processChunk` (lines 40–98). -/
def groqProcessChunk (parse : String → Option GroqChunk) (st : GroqState) (rawData : String) :
    GroqState × Option StreamResponse :=
  if jsTrim rawData = "" ∨ jsTrim rawData = "[DONE]" then (st, none)
  else
    let jsonStr := jsonStrOf rawData
    if jsonStr = "[DONE]" then (st, none)
    else
      match parse jsonStr with
      | none => (st, none)
      | some ch =>
        let st1 :=
          if st.model = "" ∧ ch.model ≠ "" then { st with model := ch.model, chatId := ch.id }
          else st
        match ch.choices.head? with
        | none => (st1, none)
        | some choice =>
          match choice.delta.bind (·.content) with
          | some t =>
            if t ≠ "" then
              ({ st1 with completeOutput := st1.completeOutput ++ t },
               some { type := "delta", token := t })
            else groqFinishCheck st1 choice ch
          | none => groqFinishCheck st1 choice ch

/-- The `for (const line of lines)` loop (lines 128–136): nonblank lines are
trimmed and fed to `processChunk`; a `null` result yields nothing. -/
def groqLines (parse : String → Option GroqChunk) : GroqState → List String → GroqState × List StreamResponse
  | st, [] => (st, [])
  | st, line :: rest =>
    if jsTrim line ≠ "" then
      let (st1, ev) := groqProcessChunk parse st (jsTrim line)
      let (st2, evs) := groqLines parse st1 rest
      (st2, (match ev with | some e => [e] | none => []) ++ evs)
    else groqLines parse st rest

/-- One iteration of the Groq read loop (lines 117–137): split the buffered
input on `'\n'`, keep the trailing (possibly incomplete) line buffered. -/
def groqStep (parse : String → Option GroqChunk) :
    String × GroqState → String → (String × GroqState) × List StreamResponse
  | (buffer, st), read =>
    let buf := buffer ++ read
    let lines := jsSplitOnChar '\n' buf
    let buffer' := lines.getLast?.getD ""
    let (st1, evs) := groqLines parse st lines.dropLast
    ((buffer', st1), evs)

/-- `GroqStreamProcessor.createAsyncGenerator` (lines 103–151).  Note there
is no end-of-stream synthesis of a completed event: after the reads, only a
nonblank leftover buffer is processed. -/
def groqCreateAsyncGenerator (parse : String → Option GroqChunk) (reads : List String) :
    List StreamResponse :=
  let ((buffer, st), evs) := foldProc (groqStep parse) ("", {}) reads
  if jsTrim buffer ≠ "" then
    match groqProcessChunk parse st (jsTrim buffer) with
    | (_, some ev) => evs ++ [ev]
    | (_, none) => evs
  else evs

/-! ## Concrete instances used by the claims -/

/-- A concrete successful Gemini REST response. -/
def c1GeminiResponse : GeminiResponse :=
  { candidates := [{ parts := [GContentPart.text "ok"] }]
    modelVersion := some "gemini-2.5-flash"
    responseId := some "resp-1" }

/-- The logical Gemini frame whose text content is `"hello world"`. -/
def helloFrame : String :=
  "\x7b\"candidates\":[\x7b\"content\":\x7b\"parts\":[\x7b\"text\":\"hello world\"\x7d]\x7d\x7d]\x7d"

/-- What `JSON.parse` yields on `helloFrame`. -/
def helloChunk : GChunk :=
  { candidates := [{ parts := [{ text := some "hello world" }] }] }

/-- A parse oracle defined on exactly the frames of the `helloFrame` stream. -/
def helloParse : String → Option GChunk :=
  fun s => if s = helloFrame then some helloChunk else none

/-- First read: `helloFrame` cut after `"hel`. -/
def helloRead1 : String :=
  "\x7b\"candidates\":[\x7b\"content\":\x7b\"parts\":[\x7b\"text\":\"hel"

/-- Second read: the rest of `helloFrame`, starting `lo world`. -/
def helloRead2 : String :=
  "lo world\"\x7d]\x7d\x7d]\x7d"

/-- A Gemini stream chunk whose single part carries the given text. -/
def gChunkOf (t : String) : GChunk :=
  { candidates := [{ parts := [{ text := some t }] }] }

/-- A Groq stream chunk whose first choice carries the given delta text. -/
def groqChunkOf (t : String) : GroqChunk :=
  { choices := [{ delta := some { content := some t } }] }
/-- A concrete retryable error used by the retry witnesses. -/
def retryableErrEx : JsError :=
  { cls := ErrClass.retryableInst, name := "RetryableError", message := "HTTP 500" }

/-- A concrete non-retryable error used by the retry witnesses. -/
def nonRetryableErrEx : JsError :=
  { cls := ErrClass.nonRetryableInst, name := "NonRetryableError",
    message := "bad request", status := some 400 }


end LLMForge

namespace LLMForge

/-! ### Retry-handler lemmas -/

theorem execFrom_count_le (cfg : RetryConfig) (op : Nat → Except JsError α) :
    ∀ remaining attempt, (execFrom cfg op remaining attempt).2 ≤ remaining + 1 := by
  intro remaining
  induction remaining with
  | zero =>
    intro attempt
    unfold execFrom
    cases op attempt <;> simp
  | succ r ih =>
    intro attempt
    unfold execFrom
    cases op attempt with
    | ok v => simp
    | error e =>
      simp only
      by_cases h : isRetryableError cfg e
      · simp only [h, if_true]
        have := ih (attempt + 1)
        omega
      · simp [h]

theorem execFrom_always_fail (cfg : RetryConfig) (errs : Nat → JsError)
    (op : Nat → Except JsError α)
    (hop : ∀ k, op k = .error (errs k))
    (hr : ∀ k, isRetryableError cfg (errs k) = true) :
    ∀ remaining attempt,
      execFrom cfg op remaining attempt =
        (.error (errs (attempt + remaining)), remaining + 1) := by
  intro remaining
  induction remaining with
  | zero =>
    intro attempt
    unfold execFrom
    rw [hop attempt]
    simp
  | succ r ih =>
    intro attempt
    unfold execFrom
    rw [hop attempt]
    simp only [hr attempt, if_true, ih (attempt + 1)]
    have : attempt + 1 + r = attempt + (r + 1) := by omega
    rw [this]

/-- Under the hypotheses of claim C5, the error classifies as non-retryable. -/
theorem isRetryableError_false_of_c5
    (cfg : RetryConfig) (e : JsError)
    (h : e.cls = ErrClass.nonRetryableInst ∨
      (e.cls ≠ ErrClass.retryableInst ∧
       ¬(e.name = "TypeError" ∧ strIncludes e.message "fetch" = true) ∧
       ¬(e.name = "AbortError" ∨ strIncludes e.message "timeout" = true) ∧
       ∀ sc, statusOrCode e = some sc → sc ∉ cfg.retryableStatusCodes)) :
    isRetryableError cfg e = false := by
  unfold isRetryableError
  rcases h with hnr | ⟨hcls, hconn, habort, hstatus⟩
  · simp [hnr]
  · rcases e with ⟨cls, name, msg, status, code⟩
    cases cls with
    | nonRetryableInst => simp
    | retryableInst => exact absurd rfl hcls
    | plain =>
      rw [if_neg (by simp), if_neg (by simp)]
      rw [if_neg (by
        simp only [Bool.and_eq_true, decide_eq_true_eq]
        exact fun hc => hconn ⟨hc.1, hc.2⟩)]
      rw [if_neg (by
        simp only [Bool.or_eq_true, decide_eq_true_eq]
        exact fun hc => habort hc)]
      cases hsc : statusOrCode ⟨ErrClass.plain, name, msg, status, code⟩ with
      | none => rfl
      | some sc =>
        simp only
        exact decide_eq_false (hstatus sc hsc)


/-- C4: for a retry policy with `maxRetries = n`, `executeWithRetry` invokes
the operation at most `n + 1` times; if the operation fails with a retryable
error on every attempt, it is invoked exactly `n + 1` times and the last
error is propagated. -/
theorem executeWithRetry_invocation_bound (cfg : RetryConfig)
    (op : Nat → Except JsError α) (errs : Nat → JsError)
    (hop : ∀ k, op k = .error (errs k))
    (hr : ∀ k, isRetryableError cfg (errs k) = true) :
    (∀ op2 : Nat → Except JsError β, (executeWithRetry cfg op2).2 ≤ cfg.maxRetries + 1) ∧
    (executeWithRetry cfg op).2 = cfg.maxRetries + 1 ∧
    (executeWithRetry cfg op).1 = .error (errs cfg.maxRetries) := by
  refine ⟨fun op2 => execFrom_count_le cfg op2 cfg.maxRetries 0, ?_, ?_⟩
  · rw [executeWithRetry, execFrom_always_fail cfg errs op hop hr cfg.maxRetries 0]
  · rw [executeWithRetry, execFrom_always_fail cfg errs op hop hr cfg.maxRetries 0]
    simp

/-- Witness for C4 at `maxRetries = 3` (the constructor default) and an
operation failing with a `RetryableError` on every attempt: 4 invocations. -/
theorem executeWithRetry_invocation_bound_witness :
    (executeWithRetry (mkRetryConfig {}) (fun _ => (.error retryableErrEx : Except JsError Unit))).2 = 4 ∧
    (executeWithRetry (mkRetryConfig {}) (fun _ => (.error retryableErrEx : Except JsError Unit))).1 =
      .error retryableErrEx := by
  have hr : isRetryableError (mkRetryConfig {}) retryableErrEx = true := by decide
  have h := executeWithRetry_invocation_bound (β := Unit) (mkRetryConfig {})
    (fun _ => (.error retryableErrEx : Except JsError Unit)) (fun _ => retryableErrEx)
    (fun _ => rfl) (fun _ => hr)
  exact ⟨h.2.1, h.2.2⟩

/-- C5: an error that is a `NonRetryableError` instance — or that is not
tagged retryable, is no fetch/abort/timeout failure, and carries no status
code in `retryableStatusCodes` — makes `executeWithRetry` invoke the
operation exactly once and propagate that error, whatever `maxRetries` is. -/
theorem executeWithRetry_nonretryable_once (cfg : RetryConfig)
    (op : Nat → Except JsError α) (e : JsError)
    (hop : op 0 = .error e)
    (h : e.cls = ErrClass.nonRetryableInst ∨
      (e.cls ≠ ErrClass.retryableInst ∧
       ¬(e.name = "TypeError" ∧ strIncludes e.message "fetch" = true) ∧
       ¬(e.name = "AbortError" ∨ strIncludes e.message "timeout" = true) ∧
       ∀ sc, statusOrCode e = some sc → sc ∉ cfg.retryableStatusCodes)) :
    executeWithRetry cfg op = (.error e, 1) := by
  have hf := isRetryableError_false_of_c5 cfg e h
  rw [executeWithRetry]
  unfold execFrom
  rw [hop]
  cases cfg.maxRetries with
  | zero => rfl
  | succ r => simp [hf]

/-- Witness for C5: a `NonRetryableError` thrown on the first call, under
the default policy with `maxRetries = 3`, is invoked once and rethrown. -/
theorem executeWithRetry_nonretryable_once_witness :
    executeWithRetry (mkRetryConfig {}) (fun _ => (.error nonRetryableErrEx : Except JsError Unit)) =
      (.error nonRetryableErrEx, 1) :=
  executeWithRetry_nonretryable_once (mkRetryConfig {})
    (fun _ => (.error nonRetryableErrEx : Except JsError Unit)) nonRetryableErrEx
    rfl (Or.inl rfl)

/-- C6: in exponential-backoff mode with a positive base delay, the computed
delay is non-decreasing from one attempt to the next, for any pair of values
of `Math.random()` in `[0, 1)` (jitter fractions in `[0, 0.1)`). -/
theorem calculateDelay_monotone (cfg : RetryConfig)
    (hexp : cfg.exponentialBackoff = true) (hpos : 0 < cfg.retryDelay)
    (attempt : Nat) (r1 r2 : ℚ)
    (h1 : 0 ≤ r1) (h1' : r1 < 1) (h2 : 0 ≤ r2) (h2' : r2 < 1) :
    calculateDelay cfg attempt r1 ≤ calculateDelay cfg (attempt + 1) r2 := by
  unfold calculateDelay
  rw [hexp]
  simp only [Bool.not_true, Bool.false_eq_true, if_false]
  have hb : (0 : ℚ) < cfg.retryDelay * 2 ^ attempt := by positivity
  have harg : cfg.retryDelay * 2 ^ attempt + r1 * (1 / 10) * (cfg.retryDelay * 2 ^ attempt) ≤
      cfg.retryDelay * 2 ^ (attempt + 1) + r2 * (1 / 10) * (cfg.retryDelay * 2 ^ (attempt + 1)) := by
    rw [pow_succ]
    nlinarith [hb, h1, h1', h2]
  exact_mod_cast Int.floor_le_floor harg

/-- Witness for C6 at `baseDelay = 1000`, attempt `0 → 1`, jitter draws
`0` and `1/2`. -/
theorem calculateDelay_monotone_witness :
    calculateDelay (mkRetryConfig {}) 0 0 ≤ calculateDelay (mkRetryConfig {}) 1 (1 / 2) :=
  calculateDelay_monotone (mkRetryConfig {}) (by decide)
    (by norm_num [mkRetryConfig, jsRatOr]) 0 0 (1 / 2)
    (by norm_num) (by norm_num) (by norm_num) (by norm_num)

/-- C10: the orchestrator's normalized default retry policy has
`maxRetries = 0`, but the `RetryHandler` constructor coerces every falsy
`maxRetries` (including `0`) to `3`, so under that policy an always-failing
retryable operation is invoked `4` times rather than once. -/
theorem retryHandler_coerces_zero_maxRetries (op : Nat → Except JsError α) (errs : Nat → JsError)
    (hop : ∀ k, op k = .error (errs k))
    (hr : ∀ k, isRetryableError (mkRetryConfig defaultLLMRetryConfig) (errs k) = true) :
    defaultLLMRetryConfig.maxRetries = some 0 ∧
    (mkRetryConfig defaultLLMRetryConfig).maxRetries = 3 ∧
    (∀ c : PartialRetryConfig, c.maxRetries = some 0 → (mkRetryConfig c).maxRetries = 3) ∧
    (executeWithRetry (mkRetryConfig defaultLLMRetryConfig) op).2 = 4 := by
  refine ⟨rfl, rfl, ?_, ?_⟩
  · intro c hc
    simp [mkRetryConfig, jsNumOr, hc]
  · rw [executeWithRetry,
      execFrom_always_fail (mkRetryConfig defaultLLMRetryConfig) errs op hop hr
        (mkRetryConfig defaultLLMRetryConfig).maxRetries 0]
    rfl

/-- Witness for C10: the default-policy handler invokes an always-failing
retryable operation exactly 4 times. -/
theorem retryHandler_coerces_zero_maxRetries_witness :
    (executeWithRetry (mkRetryConfig defaultLLMRetryConfig)
      (fun _ => (.error retryableErrEx : Except JsError Unit))).2 = 4 := by
  have hr : isRetryableError (mkRetryConfig defaultLLMRetryConfig) retryableErrEx = true := by
    decide
  exact (retryHandler_coerces_zero_maxRetries
    (fun _ => (.error retryableErrEx : Except JsError Unit)) (fun _ => retryableErrEx)
    (fun _ => rfl) (fun _ => hr)).2.2.2

/-! ### Orchestrator lemmas -/

theorem string_data_append (a b : String) : (a ++ b).data = a.data ++ b.data := rfl

/-- Every element of the list is a substring of its comma-join. -/
theorem mem_infix_joinComma : ∀ (l : List String) (x : String), x ∈ l →
    x.data <:+: (joinComma l).data := by
  intro l
  induction l with
  | nil => intro x hx; cases hx
  | cons y ys ih =>
    intro x hx
    cases ys with
    | nil =>
      have hxy : x = y := by simpa using hx
      subst hxy
      exact List.infix_refl _
    | cons z zs =>
      rcases List.mem_cons.mp hx with h | h
      · subst h
        rw [show joinComma (x :: z :: zs) = x ++ ", " ++ joinComma (z :: zs) from rfl]
        rw [string_data_append, string_data_append]
        exact ((List.prefix_append x.data _).trans (by rw [List.append_assoc])).isInfix
      · have := ih x h
        rw [show joinComma (y :: z :: zs) = y ++ ", " ++ joinComma (z :: zs) from rfl]
        rw [string_data_append]
        exact this.trans (List.suffix_append _ _).isInfix

/-- The provider name is a substring of its own trace line. -/
theorem name_infix_reasonLine (r : String × String) :
    r.1.data <:+: (reasonLine r).data := by
  rw [reasonLine, string_data_append, string_data_append]
  exact ((List.prefix_append r.1.data _).trans (by rw [List.append_assoc])).isInfix

/-- A trace line is never the empty string. -/
theorem reasonLine_data_ne_nil (r : String × String) : (reasonLine r).data ≠ [] := by
  rw [reasonLine, string_data_append, string_data_append]
  simp [String.data]

/-- The loop of `run` under `enableFallback = true` over all-failing
candidates accumulates every failure into the trace. -/
theorem runAux_all_fail (now : Nat) :
    ∀ (failures : List (String × String)) (trace : List (String × String)),
      runAux true now trace (failures.map fun f => (f.1, Except.error f.2)) =
        runFinish true now (trace ++ failures) := by
  intro failures
  induction failures with
  | nil => intro trace; simp [runAux]
  | cons g gs ih =>
    intro trace
    rw [List.map_cons]
    show runAux true now (trace ++ [(g.1, g.2)]) (gs.map fun f => (f.1, Except.error f.2)) = _
    rw [ih (trace ++ [(g.1, g.2)])]
    simp

/-- C2: with every endpoint failing and `enableFallback = true`, `run`
resolves to the degraded response: empty output, status `'fallback'`, and a
non-empty `fallback.reason` containing every attempted client's name. -/
theorem run_all_fail_resolves_fallback (now : Nat) (failures : List (String × String))
    (hne : failures ≠ []) :
    ∃ reason : String,
      run true now (failures.map fun f => (f.1, Except.error f.2)) = .ok
        { resp_id := none
          output := some ""
          created_at := some now
          model := some "fallback"
          usage := some { input_tokens := some 0, output_tokens := some 0, total_tokens := some 0 }
          status := some "fallback"
          fallback := some { isUsed := true, reason := some reason } } ∧
      reason ≠ "" ∧
      ∀ f ∈ failures, f.1.data <:+: reason.data := by
  refine ⟨joinComma (failures.map reasonLine), ?_, ?_, ?_⟩
  · obtain ⟨g, gs, rfl⟩ := List.exists_cons_of_ne_nil hne
    have h1 : run true now (List.map (fun f => (f.1, Except.error f.2)) (g :: gs)) =
        runAux true now [] (List.map (fun f => (f.1, Except.error f.2)) (g :: gs)) := by
      rw [List.map_cons]
      rfl
    rw [h1, runAux_all_fail now (g :: gs) [], runFinish, if_pos ⟨by simp, rfl⟩]
    rfl
  · obtain ⟨g, gs, rfl⟩ := List.exists_cons_of_ne_nil hne
    intro hemp
    have hinf : (reasonLine g).data <:+: (joinComma ((g :: gs).map reasonLine)).data :=
      mem_infix_joinComma _ _ (List.mem_map_of_mem _ (List.mem_cons_self g gs))
    rw [hemp] at hinf
    exact reasonLine_data_ne_nil g (List.eq_nil_of_infix_nil hinf)
  · intro f hf
    exact (name_infix_reasonLine f).trans
      (mem_infix_joinComma _ _ (List.mem_map_of_mem _ hf))

/-- Witness for C2: two always-failing clients. -/
theorem run_all_fail_resolves_fallback_witness :
    ∃ reason : String,
      run true 0 ([("GeminiClient", "boom"), ("GroqClient", "down")].map
          fun f => (f.1, Except.error f.2)) = .ok
        { resp_id := none
          output := some ""
          created_at := some 0
          model := some "fallback"
          usage := some { input_tokens := some 0, output_tokens := some 0, total_tokens := some 0 }
          status := some "fallback"
          fallback := some { isUsed := true, reason := some reason } } ∧
      reason ≠ "" ∧
      ∀ f ∈ [("GeminiClient", "boom"), ("GroqClient", "down")], f.1.data <:+: reason.data :=
  run_all_fail_resolves_fallback 0 [("GeminiClient", "boom"), ("GroqClient", "down")]
    (by decide)

/-- C3: with `enableFallback = false`, a first failing candidate makes `run`
reject immediately — whatever candidates follow are never consulted — and
the error message lists the attempted provider with its failure reason. -/
theorem run_no_fallback_rejects (now : Nat) (name msg : String)
    (rest : List (String × Except String GenerateContentResponse)) :
    run false now ((name, Except.error msg) :: rest) =
      .error ("All LLM clients failed: " ++ (name ++ ": " ++ msg)) := by
  show runAux false now [] ((name, Except.error msg) :: rest) = _
  rw [runAux]
  simp only [Bool.false_eq_true, if_false]
  rw [runFinish, if_neg (by simp)]
  rfl

/-- C1 (code evaluation at the failing input): with a failing priority-1
client and a succeeding priority-2 client under `enableFallback = true`,
`run` resolves to the priority-2 adapter response returned verbatim — whose
`fallback` field is absent (`undefined`), not `{ isUsed: true, … }`. -/
theorem run_success_after_failure_drops_fallback :
    run true 0 [("GeminiClient", Except.error "Request failed"),
        ("GroqClient", Except.ok (convertFromGeminiResponse c1GeminiResponse))] =
      .ok (convertFromGeminiResponse c1GeminiResponse) ∧
    (convertFromGeminiResponse c1GeminiResponse).fallback = none ∧
    (convertFromGeminiResponse c1GeminiResponse).status = some "success" := by
  refine ⟨rfl, rfl, rfl⟩

/-! ### Stream normalizer lemmas -/

theorem foldProc_append (f : σ → δ → σ × List StreamResponse) (a b : List δ) :
    ∀ s : σ, foldProc f s (a ++ b) =
      ((foldProc f (foldProc f s a).1 b).1,
       (foldProc f s a).2 ++ (foldProc f (foldProc f s a).1 b).2) := by
  induction a with
  | nil => intro s; simp [foldProc]
  | cons d ds ih =>
    intro s
    rcases hfd : f s d with ⟨s1, e1⟩
    simp only [List.cons_append, foldProc, hfd, List.append_eq]
    rw [ih s1]
    simp [List.append_assoc]

/-- A frame on which `JSON.parse` fails contributes nothing to the Google
object loop. -/
theorem procObjs_skip (parse : String → Option GChunk) (xs ys : List String)
    (bad : String) (hbad : parse bad = none) :
    ∀ acc : GoogleAcc,
      procObjs parse acc (xs ++ bad :: ys) = procObjs parse acc (xs ++ ys) := by
  induction xs with
  | nil =>
    intro acc
    show foldProc _ acc (bad :: ys) = foldProc _ acc ys
    rw [foldProc, hbad]
    simp
  | cons x xs ih =>
    intro acc
    show foldProc _ acc (x :: (xs ++ bad :: ys)) = foldProc _ acc (x :: (xs ++ ys))
    rw [foldProc, foldProc]
    rcases hx : (match parse x with | some ch => procChunk acc ch | none => (acc, [])) with ⟨a1, e1⟩
    simp only [hx]
    have h2 : foldProc (fun acc s => match parse s with
          | some ch => procChunk acc ch
          | none => (acc, [])) a1 (xs ++ bad :: ys) =
        foldProc (fun acc s => match parse s with
          | some ch => procChunk acc ch
          | none => (acc, [])) a1 (xs ++ ys) := ih a1
    rw [h2]

/-- A line on which `JSON.parse` fails (after SSE prefix stripping) leaves
`processChunk` with an unchanged state and no event. -/
theorem groqProcessChunk_parse_fail (parse : String → Option GroqChunk)
    (st : GroqState) (raw : String) (h : parse (jsonStrOf raw) = none) :
    groqProcessChunk parse st raw = (st, none) := by
  unfold groqProcessChunk
  by_cases h1 : jsTrim raw = "" ∨ jsTrim raw = "[DONE]"
  · simp [h1]
  · rw [if_neg h1]
    by_cases h2 : jsonStrOf raw = "[DONE]"
    · simp [h2]
    · simp [h2, h]

/-- A malformed line in the Groq line loop is skipped with no effect. -/
theorem groqLines_skip (parse : String → Option GroqChunk) (xs ys : List String)
    (bad : String) (hbad : parse (jsonStrOf (jsTrim bad)) = none) :
    ∀ st : GroqState,
      groqLines parse st (xs ++ bad :: ys) = groqLines parse st (xs ++ ys) := by
  induction xs with
  | nil =>
    intro st
    show groqLines parse st (bad :: ys) = groqLines parse st ys
    rw [groqLines]
    by_cases hb : jsTrim bad ≠ ""
    · rw [if_pos hb, groqProcessChunk_parse_fail parse st (jsTrim bad) hbad]
      simp
    · rw [if_neg hb]
  | cons x xs ih =>
    intro st
    show groqLines parse st (x :: (xs ++ bad :: ys)) = groqLines parse st (x :: (xs ++ ys))
    rw [groqLines, groqLines]
    by_cases hx : jsTrim x ≠ ""
    · rw [if_pos hx, if_pos hx]
      rcases hpc : groqProcessChunk parse st (jsTrim x) with ⟨st1, ev⟩
      simp only [hpc]
      rw [ih st1]
    · rw [if_neg hx, if_neg hx]
      exact ih st

/-- C9: in both normalizers, a frame that fails to parse, sitting between
well-formed frames, is skipped: the event sequence (and all carried state)
is exactly that of the stream without the malformed frame, so the Delta
events on either side survive in order and processing is never aborted. -/
theorem malformed_frame_skipped (gp : String → Option GChunk)
    (pp : String → Option GroqChunk) (acc : GoogleAcc) (st : GroqState)
    (xs ys ls rs : List String) (bad badLine : String)
    (hbad : gp bad = none) (hbadLine : pp (jsonStrOf (jsTrim badLine)) = none) :
    procObjs gp acc (xs ++ bad :: ys) = procObjs gp acc (xs ++ ys) ∧
    groqLines pp st (ls ++ badLine :: rs) = groqLines pp st (ls ++ rs) :=
  ⟨procObjs_skip gp xs ys bad hbad acc,
   groqLines_skip pp ls rs badLine hbadLine st⟩

/-- Witness for C9: concrete well-formed frames around a malformed one; the
Delta events of both neighbours are emitted, in order. -/
theorem malformed_frame_skipped_witness :
    (procObjs (fun s => if s = "\x7b\"t\":\"A\"\x7d" then some (gChunkOf "A")
        else if s = "\x7b\"t\":\"B\"\x7d" then some (gChunkOf "B") else none)
      {} (["\x7b\"t\":\"A\"\x7d"] ++ "\x7bbroken" :: ["\x7b\"t\":\"B\"\x7d"]) =
     procObjs (fun s => if s = "\x7b\"t\":\"A\"\x7d" then some (gChunkOf "A")
        else if s = "\x7b\"t\":\"B\"\x7d" then some (gChunkOf "B") else none)
      {} (["\x7b\"t\":\"A\"\x7d"] ++ ["\x7b\"t\":\"B\"\x7d"])) ∧
    (groqLines (fun s => if s = "\x7b\"c\":\"A\"\x7d" then some (groqChunkOf "A")
        else if s = "\x7b\"c\":\"B\"\x7d" then some (groqChunkOf "B") else none)
      {} (["data: \x7b\"c\":\"A\"\x7d"] ++ "data: \x7boops" :: ["data: \x7b\"c\":\"B\"\x7d"]) =
     groqLines (fun s => if s = "\x7b\"c\":\"A\"\x7d" then some (groqChunkOf "A")
        else if s = "\x7b\"c\":\"B\"\x7d" then some (groqChunkOf "B") else none)
      {} (["data: \x7b\"c\":\"A\"\x7d"] ++ ["data: \x7b\"c\":\"B\"\x7d"])) ∧
    (procObjs (fun s => if s = "\x7b\"t\":\"A\"\x7d" then some (gChunkOf "A")
        else if s = "\x7b\"t\":\"B\"\x7d" then some (gChunkOf "B") else none)
      {} (["\x7b\"t\":\"A\"\x7d"] ++ "\x7bbroken" :: ["\x7b\"t\":\"B\"\x7d"])).2 =
      [{ type := "delta", token := "A" }, { type := "delta", token := "B" }] := by
  refine ⟨?_, ?_, by rfl⟩
  · exact (malformed_frame_skipped _ (fun _ => none) {} {} ["\x7b\"t\":\"A\"\x7d"] ["\x7b\"t\":\"B\"\x7d"]
      [] [] "\x7bbroken" "" (by rfl) (by rfl)).1
  · exact (malformed_frame_skipped (fun _ => none) _ {} {} [] []
      ["data: \x7b\"c\":\"A\"\x7d"] ["data: \x7b\"c\":\"B\"\x7d"] "" "data: \x7boops" (by rfl) (by rfl)).2

/-- Counterexample to C8: the Groq normalizer yields no events at all on an
empty byte stream — in particular not exactly one Completed event. -/
theorem groq_empty_stream_yields_nothing :
    groqCreateAsyncGenerator (fun _ => none) [] = [] ∧
    ¬ ∃ e : StreamResponse,
        groqCreateAsyncGenerator (fun _ => none) [] = [e] ∧ e.type = "completed" := by
  refine ⟨rfl, ?_⟩
  rintro ⟨e, he, -⟩
  have : ([] : List StreamResponse) = [e] := he
  simp at this

/-- C8 (amended): on an empty byte stream the Google normalizer emits no
Delta events, only its `done` marker followed by exactly one Completed event
with empty `completeOutput` and empty-string `status`; the Groq normalizer
emits nothing at all. -/
theorem empty_stream_completed (gp : String → Option GChunk)
    (pp : String → Option GroqChunk) :
    googleCreateAsyncGenerator gp [] = [doneEvent {}, completedEvent {}] ∧
    (completedEvent {}).type = "completed" ∧
    (completedEvent {}).completeOutput = some "" ∧
    (completedEvent {}).status = some "" ∧
    (doneEvent {}).type = "done" ∧
    groqCreateAsyncGenerator pp [] = [] :=
  ⟨rfl, rfl, rfl, rfl, rfl, rfl⟩

/-! ### Re-chunking invariance of the Google normalizer (C7)

The scanner of `extractCompleteJsonObjects` is a character fold, so scanning
`a ++ b` is scanning `b` from the state reached after `a`; a well-formed
frame (`IsFrame`) returns the scanner to the initial state, and any proper
prefix of a frame leaves the whole prefix in `cur` — which is exactly what
the generator carries over as `remainingBuffer`.  Together these give that
the generator's per-read re-scan of `remainingBuffer ++ read` from the
initial state agrees with one uninterrupted scan of the whole stream. -/

theorem scanList_append (a b : List Char) :
    ∀ σ : ScanState, scanList σ (a ++ b) =
      ((scanList (scanList σ a).1 b).1,
       (scanList σ a).2 ++ (scanList (scanList σ a).1 b).2) := by
  induction a with
  | nil => intro σ; simp [scanList]
  | cons c cs ih =>
    intro σ
    rcases hs : scanStep σ c with ⟨σ1, out⟩
    simp only [List.cons_append, scanList, hs, List.append_eq]
    rw [ih σ1]
    cases out with
    | none => simp
    | some o => simp

/-- Scanning any prefix `p` of a concatenation of well-formed frames from
the initial state emits exactly the fully covered frames, and the scanner
state is the one reached by scanning the partially covered frame prefix `q`
alone — which is precisely what the generator keeps as `remainingBuffer`. -/
theorem scan_prefix_frames :
    ∀ (fs : List (List Char)), (∀ f ∈ fs, IsFrame f) →
    ∀ (p r : List Char), p ++ r = fs.flatten →
    ∃ k q,
      p = (fs.take k).flatten ++ q ∧
      (scanList initScan p).2 = fs.take k ∧
      (scanList initScan p).1 = (scanList initScan q).1 ∧
      (scanList initScan q).2 = [] ∧
      ((q = [] ∧ (scanList initScan q).1 = initScan) ∨
       (∃ f rest, fs.drop k = f :: rest ∧ q.length < f.length ∧ q = f.take q.length ∧
         q ≠ [] ∧ (scanList initScan q).1.cur = some q.reverse)) := by
  intro fs
  induction fs with
  | nil =>
    intro _ p r hpr
    simp only [List.flatten_nil] at hpr
    have hp : p = [] := (List.append_eq_nil.mp hpr).1
    subst hp
    exact ⟨0, [], by simp, rfl, rfl, rfl, Or.inl ⟨rfl, rfl⟩⟩
  | cons f fs' ih =>
    intro hfs p r hpr
    have hf : IsFrame f := hfs f (List.mem_cons_self f fs')
    have hfs' : ∀ g ∈ fs', IsFrame g := fun g hg => hfs g (List.mem_cons_of_mem f hg)
    rw [List.flatten_cons] at hpr
    rcases List.append_eq_append_iff.mp hpr with ⟨a', ha1, ha2⟩ | ⟨c', hc1, hc2⟩
    · -- p is a (possibly improper) prefix of the first frame
      by_cases ha : a' = []
      · subst ha
        rw [List.append_nil] at ha1
        subst ha1
        refine ⟨1, [], by simp, ?_, ?_, rfl, Or.inl ⟨rfl, rfl⟩⟩
        · rw [hf.2.1]
          simp
        · rw [hf.2.1]
          rfl
      · by_cases hp0 : p = []
        · subst hp0
          exact ⟨0, [], by simp, rfl, rfl, rfl, Or.inl ⟨rfl, rfl⟩⟩
        · have hlen : p.length < f.length := by
            rw [ha1, List.length_append]
            have : 0 < a'.length := List.length_pos.mpr ha
            omega
          have htake : f.take p.length = p := by
            rw [ha1]
            exact List.take_left p a'
          have hprefix := hf.2.2 p.length hlen (List.length_pos.mpr hp0)
          rw [htake] at hprefix
          exact ⟨0, p, by simp, by simpa using hprefix.1, rfl, hprefix.1,
            Or.inr ⟨f, fs', rfl, hlen, htake.symm, hp0, hprefix.2⟩⟩
    · -- p covers the first frame entirely: recurse on the tail
      obtain ⟨k', q, h1, h2, h3, h4, h5⟩ := ih hfs' c' r hc2.symm
      refine ⟨k' + 1, q, ?_, ?_, ?_, h4, ?_⟩
      · rw [hc1, h1, List.take_succ_cons, List.flatten_cons, List.append_assoc]
      · rw [hc1, scanList_append f c' initScan, hf.2.1]
        simp only [List.take_succ_cons]
        simp [h2]
      · rw [hc1, scanList_append f c' initScan, hf.2.1]
        exact h3
      · rcases h5 with ⟨hq, hs⟩ | ⟨g, rest, hdrop, hl, ht, hq, hcur⟩
        · exact Or.inl ⟨hq, hs⟩
        · exact Or.inr ⟨g, rest, by simpa using hdrop, hl, ht, hq, hcur⟩

theorem remOf_of_cur (σ : ScanState) (l : List Char) (h : σ.cur = some l) :
    remOf σ = l.reverse := by
  unfold remOf
  rw [h]

theorem procObjs_append (parse : String → Option GChunk) (a b : List String) (acc : GoogleAcc) :
    procObjs parse acc (a ++ b) =
      ((procObjs parse (procObjs parse acc a).1 b).1,
       (procObjs parse acc a).2 ++ (procObjs parse (procObjs parse acc a).1 b).2) :=
  foldProc_append _ a b acc

theorem googleStep_eq (parse : String → Option GChunk) (q : List Char) (acc : GoogleAcc)
    (read : String) :
    googleStep parse (q, acc) read =
      ((remOf (scanList initScan (q ++ read.data)).1,
        (procObjs parse acc ((scanList initScan (q ++ read.data)).2.map String.mk)).1),
       (procObjs parse acc ((scanList initScan (q ++ read.data)).2.map String.mk)).2) := by
  unfold googleStep
  rcases h : scanList initScan (q ++ read.data) with ⟨σ, objs⟩
  rcases h2 : procObjs parse acc (objs.map String.mk) with ⟨a, e⟩
  simp [h, h2]

/-- Feeding any reads whose concatenation continues a well-formed frame
stream into the Google read loop consumes exactly the covered frames: the
final carry-over buffer is empty and the state and events are those of
processing the frames one by one. -/
theorem googleReads_canonical (parse : String → Option GChunk) :
    ∀ (reads : List String) (fs : List (List Char)) (q : List Char) (acc : GoogleAcc),
      (∀ f ∈ fs, IsFrame f) →
      q ++ (reads.map String.data).flatten = fs.flatten →
      (q = [] ∨ (∃ f rest, fs = f :: rest ∧ q.length < f.length ∧ q = f.take q.length ∧ q ≠ [])) →
      foldProc (googleStep parse) (q, acc) reads =
        (([], (procObjs parse acc (fs.map String.mk)).1),
         (procObjs parse acc (fs.map String.mk)).2) := by
  intro reads
  induction reads with
  | nil =>
    intro fs q acc hfs hflat hshape
    simp only [List.map_nil, List.flatten_nil, List.append_nil] at hflat
    rcases hshape with rfl | ⟨f, rest, rfl, hlen, htake, hne⟩
    · have hfs0 : fs = [] := by
        cases fs with
        | nil => rfl
        | cons f fs' =>
          exfalso
          rw [List.flatten_cons] at hflat
          exact (hfs f (List.mem_cons_self f fs')).1 (List.append_eq_nil.mp hflat.symm).1
      subst hfs0
      rfl
    · exfalso
      rw [List.flatten_cons] at hflat
      have : f.length ≤ q.length := by
        rw [hflat, List.length_append]
        omega
      omega
  | cons read reads' ih =>
    intro fs q acc hfs hflat hshape
    obtain ⟨k, q', hp, hobjs, hstate, hq'objs, hdisj⟩ :=
      scan_prefix_frames fs hfs (q ++ read.data) ((reads'.map String.data).flatten) (by
        rw [List.append_assoc]
        simpa [List.flatten_cons] using hflat)
    have hrem : remOf (scanList initScan (q ++ read.data)).1 = q' := by
      rw [hstate]
      rcases hdisj with ⟨hq0, hinit⟩ | ⟨f, rest, hdrop, hlen, ht, hne, hcur⟩
      · rw [hinit, hq0]
        rfl
      · rw [remOf_of_cur _ _ hcur, List.reverse_reverse]
    have hstep : googleStep parse (q, acc) read =
        ((q', (procObjs parse acc ((fs.take k).map String.mk)).1),
         (procObjs parse acc ((fs.take k).map String.mk)).2) := by
      rw [googleStep_eq, hrem, hobjs]
    have hflat' : q' ++ (reads'.map String.data).flatten = (fs.drop k).flatten := by
      have hsplit : fs.flatten = (fs.take k).flatten ++ (fs.drop k).flatten := by
        rw [← List.flatten_append, List.take_append_drop]
      have : (fs.take k).flatten ++ (q' ++ (reads'.map String.data).flatten) =
          (fs.take k).flatten ++ (fs.drop k).flatten := by
        rw [← List.append_assoc, ← hp, List.append_assoc, ← hsplit]
        simpa [List.flatten_cons] using hflat
      exact List.append_cancel_left this
    have hshape' : q' = [] ∨
        (∃ f rest, fs.drop k = f :: rest ∧ q'.length < f.length ∧
          q' = f.take q'.length ∧ q' ≠ []) := by
      rcases hdisj with ⟨hq0, _⟩ | ⟨f, rest, hdrop, hlen, ht, hne, _⟩
      · exact Or.inl hq0
      · exact Or.inr ⟨f, rest, hdrop, hlen, ht, hne⟩
    have hih := ih (fs.drop k) q' (procObjs parse acc ((fs.take k).map String.mk)).1
      (fun g hg => hfs g (List.mem_of_mem_drop hg)) hflat' hshape'
    show (let p := googleStep parse (q, acc) read
          let p2 := foldProc (googleStep parse) p.1 reads'
          (p2.1, p.2 ++ p2.2)) = _
    simp only [hstep, hih]
    have hfsplit : fs.map String.mk = (fs.take k).map String.mk ++ (fs.drop k).map String.mk := by
      rw [← List.map_append, List.take_append_drop]
    rw [hfsplit, procObjs_append]

theorem map_mk_map_data (l : List String) : (l.map String.data).map String.mk = l := by
  rw [List.map_map]
  exact List.map_id'' (fun s => rfl) l

set_option maxRecDepth 100000

/-- C7: the Google stream normalizer is invariant under re-chunking: for a
logical frame sequence (well-formed frames for the brace scanner), any two
ways of splitting the concatenated stream into successive reads yield the
same ordered event sequence — in particular the same Delta tokens with the
same aggregate — and on the concrete stream delivering `"…hel"` then
`"lo world…"` as two reads of one frame, the events are one Delta token
`"hello world"` followed by the `done` marker and one Completed event with
`completeOutput = "hello world"`. -/
theorem googleStream_rechunk_invariant (parse : String → Option GChunk)
    (frames reads1 reads2 : List String)
    (hframes : ∀ f ∈ frames, IsFrame f.data)
    (h1 : (reads1.map String.data).flatten = (frames.map String.data).flatten)
    (h2 : (reads2.map String.data).flatten = (frames.map String.data).flatten) :
    googleCreateAsyncGenerator parse reads1 = googleCreateAsyncGenerator parse reads2 ∧
    googleCreateAsyncGenerator helloParse [helloRead1, helloRead2] =
      [{ type := "delta", token := "hello world" },
       doneEvent { aggregatedText := "hello world" },
       completedEvent { aggregatedText := "hello world" }] := by
  constructor
  · have hf' : ∀ f ∈ frames.map String.data, IsFrame f := by
      intro f hf
      obtain ⟨g, hg, rfl⟩ := List.mem_map.mp hf
      exact hframes g hg
    have key : ∀ reads : List String,
        (reads.map String.data).flatten = (frames.map String.data).flatten →
        googleCreateAsyncGenerator parse reads =
          (procObjs parse {} frames).2 ++
            [doneEvent (procObjs parse {} frames).1,
             completedEvent (procObjs parse {} frames).1] := by
      intro reads hr
      have hc := googleReads_canonical parse reads (frames.map String.data) [] {} hf'
        (by simpa using hr) (Or.inl rfl)
      unfold googleCreateAsyncGenerator
      rw [hc, map_mk_map_data]
      have hfin : googleFinish parse [] (procObjs parse {} frames).1 =
          ((procObjs parse {} frames).1, []) := by
        unfold googleFinish
        rw [if_neg (by simp [jsTrim, dropWS])]
      simp only [hfin]
      simp
    rw [key reads1 h1, key reads2 h2]
  · decide

/-- Witness for C7: the split `["…hel", "lo world…"]` and the unsplit frame
produce the same events, and those events are exactly the Delta
`"hello world"`, the `done` marker, and the Completed event. -/
theorem googleStream_rechunk_invariant_witness :
    googleCreateAsyncGenerator helloParse [helloRead1, helloRead2] =
      googleCreateAsyncGenerator helloParse [helloFrame] ∧
    googleCreateAsyncGenerator helloParse [helloRead1, helloRead2] =
      [{ type := "delta", token := "hello world" },
       doneEvent { aggregatedText := "hello world" },
       completedEvent { aggregatedText := "hello world" }] := by
  have h := googleStream_rechunk_invariant helloParse [helloFrame]
    [helloRead1, helloRead2] [helloFrame]
    (by intro f hf; simp only [List.mem_singleton] at hf; subst hf; decide)
    (by decide) (by decide)
  exact ⟨h.1, h.2⟩
